import Mathlib

/-!
Verification development for the AlgoRave v01 live-coding environment.

Shallow embedding of the core pattern engine, scheduler, evaluator and
effect-chain builder, translated from:
* src/core/pattern.js        (Pattern class, stack)
* src/core/parser.js         (MiniNotationParser.parseNote)
* src/audio/scheduler.js     (PatternScheduler: start/stop/setBPM/schedulePattern)
* src/editor/evaluator.js    (CodeEvaluator.evaluate, getNextAvailableSlot)
* src/unnamed (effects file) (EffectsEngine.createEffectChain, EffectChain.dispose)

JavaScript numbers are modelled as exact rationals (ℚ); JS objects holding
nullable fields become Option; JS Map/object dictionaries become association
lists with first-match lookup.
-/

/-- The `sound` field of an event: a mini-notation token (string) or an
already-resolved MIDI number, mirroring JS values that are either strings
or numbers. -/
inductive SoundVal where
  | str (s : String)
  | num (n : Int)
deriving DecidableEq, Repr

/-- One pattern event `{ sound, time, duration }` with cycle-relative
fractional `time` and `duration` (src/core/parser.js, src/core/pattern.js). -/
structure Event where
  sound : SoundVal
  time : ℚ
  duration : ℚ
deriving DecidableEq, Repr

/-- The per-pattern effects record initialised in the Pattern constructor
(src/core/pattern.js lines 13-20): `{room: 0, delay: 0, lpf: null, hpf: null,
pan: 0.5, gain: 1.0}`. `null` becomes `none`. -/
structure Effects where
  room : ℚ
  delay : ℚ
  lpf : Option ℚ
  hpf : Option ℚ
  pan : ℚ
  gain : ℚ
deriving DecidableEq, Repr

/-- Constructor defaults from src/core/pattern.js lines 13-20. -/
def Effects.init : Effects :=
  { room := 0, delay := 0, lpf := none, hpf := none, pan := 1/2, gain := 1 }

/-- Pattern `type` tag: 'sound' | 'note' | 'stacked'. -/
inductive PatternType where
  | sound
  | note
  | stacked
deriving DecidableEq, Repr

/-- A recorded transformation (src/core/pattern.js `this.transformations`).
`every` stores the user-supplied function; its observable action inside
`getEventsForCycle` is `events ↦ (fn (new Pattern(events, type))).events`,
modelled here as a function on event lists. -/
inductive Transform where
  | fastTag (factor : ℚ)
  | slowTag (factor : ℚ)
  | revTag
  | everyTag (n : Int) (fn : List Event → List Event)

/-- The Pattern class fields (src/core/pattern.js constructor). The random
`id` string is omitted: no observable behaviour reads it. -/
structure Pattern where
  events : List Event
  type : PatternType
  speed : ℚ
  reversed : Bool
  transformations : List Transform
  effects : Effects
  synthType : Option String

/-- `new Pattern(events, type)`: speed 1.0, not reversed, no transformations,
default effects, no synthType. -/
def Pattern.mkNew (events : List Event) (type : PatternType) : Pattern :=
  { events := events, type := type, speed := 1, reversed := false,
    transformations := [], effects := Effects.init, synthType := none }

/-- `fast(factor)`: clone, multiply speed, record the transformation. -/
def Pattern.fast (p : Pattern) (factor : ℚ) : Pattern :=
  { p with speed := p.speed * factor,
           transformations := p.transformations ++ [Transform.fastTag factor] }

/-- `slow(factor)`: clone, divide speed, record the transformation. -/
def Pattern.slow (p : Pattern) (factor : ℚ) : Pattern :=
  { p with speed := p.speed / factor,
           transformations := p.transformations ++ [Transform.slowTag factor] }

/-- `rev()`: clone, toggle the reversed flag, record the transformation. -/
def Pattern.rev (p : Pattern) : Pattern :=
  { p with reversed := !p.reversed,
           transformations := p.transformations ++ [Transform.revTag] }

/-- `every(n, fn)`: clone, record the conditional transformation. -/
def Pattern.every (p : Pattern) (n : Int) (fn : List Event → List Event) : Pattern :=
  { p with transformations := p.transformations ++ [Transform.everyTag n fn] }

/-- `room(amount)`: `this.effects.room = Math.max(0, Math.min(1, amount))`,
returns `this` (modelled as returning the updated pattern). -/
def Pattern.room (p : Pattern) (amount : ℚ) : Pattern :=
  { p with effects := { p.effects with room := max 0 (min 1 amount) } }

/-- `delay(amount)`: clamp to [0,1], mutate, return `this`. -/
def Pattern.delay (p : Pattern) (amount : ℚ) : Pattern :=
  { p with effects := { p.effects with delay := max 0 (min 1 amount) } }

/-- `lpf(freq)`: `this.effects.lpf = freq` (no clamping), return `this`. -/
def Pattern.lpf (p : Pattern) (freq : ℚ) : Pattern :=
  { p with effects := { p.effects with lpf := some freq } }

/-- `hpf(freq)`: `this.effects.hpf = freq` (no clamping), return `this`. -/
def Pattern.hpf (p : Pattern) (freq : ℚ) : Pattern :=
  { p with effects := { p.effects with hpf := some freq } }

/-- `pan(position)`: `this.effects.pan = Math.max(-1, Math.min(1, position))`,
return `this`. -/
def Pattern.pan (p : Pattern) (position : ℚ) : Pattern :=
  { p with effects := { p.effects with pan := max (-1) (min 1 position) } }

/-- `gain(amount)`: `this.effects.gain = Math.max(0, Math.min(2, amount))`,
return `this`. -/
def Pattern.gain (p : Pattern) (amount : ℚ) : Pattern :=
  { p with effects := { p.effects with gain := max 0 (min 2 amount) } }

/-- `s(type)`: set the synth type, return `this`. -/
def Pattern.s (p : Pattern) (type : String) : Pattern :=
  { p with synthType := some type }

/-- `getEventsForCycle(cycleNumber)` (src/core/pattern.js lines 168-212):
speed scaling (with replication for speed > 1), then reversal, then the
recorded `every` transformations whose cycle condition holds. In JS,
`cycleNumber % n === 0` is false when `n = 0` (the modulo is NaN), hence the
`n ≠ 0` guard. -/
def Pattern.getEventsForCycle (p : Pattern) (cycleNumber : Int) : List Event :=
  let events := p.events
  let events :=
    if p.speed ≠ 1 then
      let compressed := events.map (fun e =>
        { e with time := e.time / p.speed, duration := e.duration / p.speed })
      if p.speed > 1 then
        let repetitions : Int := ⌊p.speed⌋
        (List.range repetitions.toNat).flatMap (fun i =>
          compressed.map (fun e =>
            { e with time := (e.time + (i : ℚ)) / (repetitions : ℚ) }))
      else compressed
    else events
  let events :=
    if p.reversed then
      (events.map (fun e => { e with time := 1 - e.time - e.duration })).reverse
    else events
  p.transformations.foldl (fun evs t =>
    match t with
    | Transform.everyTag n fn => if n ≠ 0 ∧ cycleNumber % n = 0 then fn evs else evs
    | _ => evs) events

/-- `stack(...patterns)` (src/core/pattern.js lines 249-267): concatenates
each input's `getEventsForCycle(0)` and keeps the last non-'sound' type,
wrapping the result in a fresh Pattern. (The JS `instanceof Pattern` guard is
vacuous here: every list element is a Pattern.) -/
def stack (patterns : List Pattern) : Pattern :=
  let allEvents := patterns.flatMap (fun p => p.getEventsForCycle 0)
  let combinedType := patterns.foldl
    (fun ct p => if p.type ≠ PatternType.sound then p.type else ct)
    PatternType.sound
  Pattern.mkNew allEvents combinedType

/-! ### Mini-notation note parsing (src/core/parser.js lines 111-141) -/

/-- The semitone table `noteMap = {c:0, d:2, e:4, f:5, g:7, a:9, b:11}`;
lookup of any other character is `undefined` (`none`). -/
def noteMap : Char → Option Int
  | 'c' => some 0
  | 'd' => some 2
  | 'e' => some 4
  | 'f' => some 5
  | 'g' => some 7
  | 'a' => some 9
  | 'b' => some 11
  | _ => none

/-- Accumulates decimal digits left to right, as repeated `acc*10 + digit`. -/
def digitsVal (ds : List Char) : Nat :=
  ds.foldl (fun acc c => acc * 10 + (c.toNat - 48)) 0

/-- Leading-digit-run parse: value of the longest digit prefix, `none` when
that prefix is empty. -/
def jsDigitsLead (cs : List Char) : Option Nat :=
  let ds := cs.takeWhile Char.isDigit
  if ds.isEmpty then none else some (digitsVal ds)

/-- Sign-and-digits step of the parseInt model, after whitespace skipping. -/
def jsParseIntSigned : List Char → Option Int
  | [] => none
  | c :: rest =>
    if c = '-' then (jsDigitsLead rest).map (fun n => -(n : Int))
    else if c = '+' then (jsDigitsLead rest).map (fun n => (n : Int))
    else (jsDigitsLead (c :: rest)).map (fun n => (n : Int))

/-- Modelled from the host language: JavaScript `parseInt` on a string —
skips leading whitespace, accepts one optional sign, then reads leading
decimal digits; no digits means NaN (`none`). -/
def jsParseInt (cs : List Char) : Option Int :=
  jsParseIntSigned (cs.dropWhile Char.isWhitespace)

/-- `parseInt(slice) || 4` (src/core/parser.js lines 126, 129): NaN and 0 are
falsy, so both fall back to the default octave 4. -/
def octaveOr4 (cs : List Char) : Int :=
  match jsParseInt cs with
  | none => 4
  | some n => if n = 0 then 4 else n

/-- The body of `parseNote` after `toLowerCase().trim()`, operating on the
character list: first char is the note letter, an optional second char `#`/`b`
is the accidental, the remaining chars give the octave (default 4); an
unrecognised letter returns 60. -/
def parseNoteCore (cs : List Char) : Int :=
  match cs with
  | [] => 60
  | c0 :: rest =>
    let acc : Option Char :=
      match rest with
      | [] => none
      | c1 :: _ => if c1 = '#' ∨ c1 = 'b' then some c1 else none
    let octave : Int :=
      match rest with
      | [] => 4
      | c1 :: rest2 =>
        if c1 = '#' ∨ c1 = 'b' then
          if rest2.isEmpty then 4 else octaveOr4 rest2
        else octaveOr4 (c1 :: rest2)
    match noteMap c0 with
    | none => 60
    | some m =>
      let m := if acc = some '#' then m + 1 else if acc = some 'b' then m - 1 else m
      (octave + 1) * 12 + m

/-- Modelled from the host language: `note.toLowerCase().trim()` — map each
character to lowercase, then strip leading and trailing whitespace — returned
as the character list the rest of `parseNote` indexes into. -/
def jsLowerTrim (note : String) : List Char :=
  (((note.data.map Char.toLower).dropWhile Char.isWhitespace).reverse.dropWhile
    Char.isWhitespace).reverse

/-- `MiniNotationParser.parseNote(note)`: lowercases and trims the input,
then maps letter + optional accidental + optional octave digits to a MIDI
number via `(octave + 1) * 12 + semitone`, adjusting ±1 for `#`/`b`;
unparseable input yields 60. -/
def MiniNotationParser.parseNote (note : String) : Int :=
  parseNoteCore (jsLowerTrim note)

/-! ### Pattern scheduler (src/audio/scheduler.js) -/

/-- `cycleDurationMs = (60000 / this.bpm) * 4` — the constant period, in
milliseconds, that `start()` (line 182) and `setBPM()` (line 235) hand to
`setInterval` for the metronome timer. -/
def cycleDurationMs (bpm : ℚ) : ℚ := 60000 / bpm * 4

/-- The delay before each tick of the timer loop registered by `start()`
(lines 185-199): `setInterval(cb, cycleDurationMs)` uses the same constant
period for every tick; no per-tick drift quantity exists in the code. -/
def schedulerTickDelayMs (bpm : ℚ) (_tickIndex : ℕ) : ℚ :=
  cycleDurationMs bpm

/-- Modelled from the spec: the claimed drift-corrected next-tick delay,
`max(0, beatDuration - drift)` with `beatDuration = 60000 / bpm` ms. -/
def claimNextDelayMs (bpm drift : ℚ) : ℚ :=
  max 0 (60000 / bpm - drift)

/-- Modelled from the host environment: a `setInterval` timer registered with
period `cycleDurationMs bpm` fires tick `n` at `(n+1) * period` after
registration; `jitter n` is the observation/execution lateness of that tick
(the timer itself re-arms from the schedule, not from the jittered instant). -/
def tickFireTimeMs (bpm : ℚ) (jitter : ℕ → ℚ) (n : ℕ) : ℚ :=
  ((n : ℚ) + 1) * cycleDurationMs bpm + jitter n

/-- Average interval between consecutive observed ticks 0..N (the sum of the
N consecutive intervals telescopes to `fire N - fire 0`). Each tick dispatches
one cycle (`scheduleCycle` runs on every tick of this timer), so this is also
the average interval between dispatched cycle starts. -/
def avgTickIntervalMs (bpm : ℚ) (jitter : ℕ → ℚ) (N : ℕ) : ℚ :=
  (tickFireTimeMs bpm jitter N - tickFireTimeMs bpm jitter 0) / (N : ℚ)

/-- What the installed metronome callback does, abstracted from the two
closure bodies in src/audio/scheduler.js: the callback installed by `start()`
(lines 185-199) pulses the LED and calls `scheduleCycle`; the replacement
callback installed by `setBPM()` (lines 236-240) only pulses the LED. -/
structure TimerCallback where
  periodMs : ℚ
  pulsesLed : Bool
  dispatchesCycles : Bool
deriving DecidableEq, Repr

/-- Scheduler state: `bpm`, `isPlaying`, the running metronome interval (if
any) and the registered pattern map (`this.patterns`, insertion-ordered). -/
structure SchedState where
  bpm : ℚ
  isPlaying : Bool
  currentCycle : Int
  metronomeInterval : Option TimerCallback
  patterns : List (String × Pattern)

/-- Constructor state (src/audio/scheduler.js lines 7-14): bpm 135, not
playing, no timer, no patterns. -/
def SchedState.initial : SchedState :=
  { bpm := 135, isPlaying := false, currentCycle := 0,
    metronomeInterval := none, patterns := [] }

/-- First-match association-list update, modelling `Map.prototype.set`:
replace an existing binding in place, else append. -/
def assocSet {α : Type} : List (String × α) → String → α → List (String × α)
  | [], k, v => [(k, v)]
  | (k0, v0) :: rest, k, v =>
    if k0 = k then (k, v) :: rest else (k0, v0) :: assocSet rest k v

/-- First-match association-list lookup (`Map.prototype.get` / JS object
property read; absent key is `undefined`). -/
def assocGet {α : Type} : List (String × α) → String → Option α
  | [], _ => none
  | (k0, v0) :: rest, k => if k0 = k then some v0 else assocGet rest k

/-- `setPattern(id, pattern)` (lines 134-142): `this.patterns.set(id, pattern)`. -/
def SchedState.setPattern (s : SchedState) (id : String) (p : Pattern) : SchedState :=
  { s with patterns := assocSet s.patterns id p }

/-- Pattern registered under `id`, if any. -/
def SchedState.getPattern (s : SchedState) (id : String) : Option Pattern :=
  assocGet s.patterns id

/-- `start()` (lines 169-203): no-op when already playing; otherwise set
`isPlaying`, reset the cycle counter and register the metronome interval at
period `cycleDurationMs` whose callback pulses the LED and dispatches a cycle
on every tick. (The async audio-engine initialisation is outside the model.) -/
def SchedState.start (s : SchedState) : SchedState :=
  if s.isPlaying then s
  else
    { s with isPlaying := true, currentCycle := 0,
             metronomeInterval := some
               { periodMs := cycleDurationMs s.bpm,
                 pulsesLed := true, dispatchesCycles := true } }

/-- `stop()` (lines 208-222): no-op when stopped; otherwise clear `isPlaying`,
reset the cycle counter and clear the interval. -/
def SchedState.stop (s : SchedState) : SchedState :=
  if !s.isPlaying then s
  else
    { s with isPlaying := false, currentCycle := 0, metronomeInterval := none }

/-- `setBPM(bpm)` (lines 227-244): clamp to [60, 200]; when playing with a
live interval, clear it and install a fresh interval at the recomputed period
whose callback only calls `pulseMetronome()` — it does not call
`scheduleCycle`. -/
def SchedState.setBPM (s : SchedState) (bpm : ℚ) : SchedState :=
  let s := { s with bpm := max 60 (min 200 bpm) }
  if s.isPlaying ∧ s.metronomeInterval.isSome then
    { s with metronomeInterval := some
               { periodMs := cycleDurationMs s.bpm,
                 pulsesLed := true, dispatchesCycles := false } }
  else s

/-- One audio dispatch leaving the scheduler: either
`sampleLibrary.play(name, eventTime, gain)` or
`synthEngine.playNote(midiNote, synthType, eventTime, durationSec, gain)`.
These are the complete argument lists the v01 scheduler forwards. -/
inductive Dispatch where
  | sample (name : SoundVal) (time : ℚ) (gain : ℚ)
  | note (midi : Int) (synthType : String) (time : ℚ) (durationSec : ℚ) (gain : ℚ)
deriving DecidableEq, Repr

/-- `schedulePattern(pattern, time, cycleNumber)` (src/audio/scheduler.js
lines 95-129): pulls `getEventsForCycle`, reads
`gain = pattern.effects.gain || 1.0` (falsy 0 becomes 1.0), computes
`beatDuration = 60 / bpm`, `cycleDuration = beatDuration * 4`, and for each
event emits a sample trigger (type 'sound') or a synth-note trigger
(type 'note', MIDI resolved through `parseNote` when the sound is a string);
any other type (e.g. 'stacked') falls through the if/else-if and emits
nothing. -/
def PatternScheduler.schedulePattern (bpm : ℚ) (p : Pattern) (time : ℚ)
    (cycleNumber : Int) : List Dispatch :=
  let events := p.getEventsForCycle cycleNumber
  let gain := if p.effects.gain = 0 then 1 else p.effects.gain
  let beatDuration := 60 / bpm
  let cycleDuration := beatDuration * 4
  events.filterMap (fun e =>
    let offset := e.time * cycleDuration
    let eventTime := time + offset
    let duration := e.duration * cycleDuration
    match p.type with
    | PatternType.sound => some (Dispatch.sample e.sound eventTime gain)
    | PatternType.note =>
      some (Dispatch.note
        (match e.sound with
         | SoundVal.num n => n
         | SoundVal.str str => MiniNotationParser.parseNote str)
        (p.synthType.getD "sawtooth") eventTime duration gain)
    | PatternType.stacked => none)

/-- The cycle duration in seconds used by `schedulePattern`
(`beatDuration * 4 = 60 / bpm * 4`). -/
def cycleDurationSec (bpm : ℚ) : ℚ := 60 / bpm * 4

/-! ### Code evaluator (src/editor/evaluator.js) -/

/-- The `type` string of a pattern. -/
def PatternType.str : PatternType → String
  | PatternType.sound => "sound"
  | PatternType.note => "note"
  | PatternType.stacked => "stacked"

/-- The transformation names used by `toString` (`t.type`). -/
def Transform.name : Transform → String
  | Transform.fastTag _ => "fast"
  | Transform.slowTag _ => "slow"
  | Transform.revTag => "rev"
  | Transform.everyTag _ _ => "every"

/-- Rendering of an effects value for `toString`; the numeric spelling is the
embedding's (exact rational) rather than JS float formatting — no claim
inspects it. -/
def qRender (q : ℚ) : String := toString q

/-- The effects part of `Pattern.prototype.toString`: entries (in constructor
order) whose value is not 0, not 0.5 and not null, rendered `k:v` and joined
by spaces. -/
def Effects.fxStr (e : Effects) : String :=
  let keep (q : ℚ) : Bool := q ≠ 0 ∧ q ≠ 1/2
  let keepOpt (o : Option ℚ) : List String → (ℚ → String) → List String :=
    fun acc f => match o with
      | none => acc
      | some q => if keep q then acc ++ [f q] else acc
  let items : List String :=
    (if keep e.room then ["room:" ++ qRender e.room] else [])
    ++ (if keep e.delay then ["delay:" ++ qRender e.delay] else [])
  let items := keepOpt e.lpf items (fun q => "lpf:" ++ qRender q)
  let items := keepOpt e.hpf items (fun q => "hpf:" ++ qRender q)
  let items := items
    ++ (if keep e.pan then ["pan:" ++ qRender e.pan] else [])
    ++ (if keep e.gain then ["gain:" ++ qRender e.gain] else [])
  String.intercalate " " items

/-- `Pattern.prototype.toString` (src/core/pattern.js lines 230-241). -/
def Pattern.descr (p : Pattern) : String :=
  let fx := Effects.fxStr p.effects
  let trans := String.intercalate "," (p.transformations.map Transform.name)
  "Pattern(" ++ PatternType.str p.type ++ ", events:" ++ toString p.events.length
    ++ (if trans ≠ "" then ", trans:" ++ trans else "")
    ++ (if fx ≠ "" then ", fx:" ++ fx else "") ++ ")"

/-- The `{success, message}` result object `evaluate` returns. -/
structure EvalResult where
  success : Bool
  message : String
deriving DecidableEq, Repr

/-- The value produced by executing one line of user code inside the
`new Function` wrapper: an object carrying a `success` property (what slot
and control functions return), a Pattern, an Array (of events), `undefined`,
or any other value. -/
inductive JsValue where
  | undef
  | resultObj (r : EvalResult)
  | patternVal (p : Pattern)
  | arrayVal (events : List Event)
  | other

/-- Outcome of running the compiled user line: a value, or a thrown error
with its message. -/
inductive ExecOutcome where
  | value (v : JsValue)
  | thrown (msg : String)

/-- Evaluator state: `this.slots` (a JS object keyed by slot name, where a
slot holds a Pattern, or `null` after silencing — both `null` and an absent
key are falsy, i.e. free), `this.currentSlotIndex`, and the global scheduler. -/
structure EvalState where
  slots : List (String × Option Pattern)
  currentSlotIndex : Nat
  scheduler : SchedState

/-- Fresh evaluator over a fresh scheduler. -/
def EvalState.initial : EvalState :=
  { slots := [], currentSlotIndex := 0, scheduler := SchedState.initial }

/-- The value bound to a slot name: flattens absent (`undefined`) and
explicit `null` to `none` — exactly the slots `!this.slots[slotName]`
treats as available. -/
def EvalState.slotVal (st : EvalState) (name : String) : Option Pattern :=
  (assocGet st.slots name).getD none

/-- `getNextAvailableSlot()` (src/editor/evaluator.js lines 17-28): the first
`i ∈ 1..9` with `d{i}` free; otherwise advance the round-robin pointer
`currentSlotIndex = currentSlotIndex % 9 + 1` and use that slot. Returns the
slot number together with the (possibly) updated state. -/
def CodeEvaluator.getNextAvailableSlot (st : EvalState) : Nat × EvalState :=
  match (List.range' 1 9).find? (fun i => (st.slotVal ("d" ++ toString i)).isNone) with
  | some i => (i, st)
  | none =>
    let idx := st.currentSlotIndex % 9 + 1
    (idx, { st with currentSlotIndex := idx })

/-- Store a pattern in slot `d{idx}`: `window.scheduler.setPattern(autoSlot,
result); this.slots[autoSlot] = result` (lines 73-74 / 88-89). -/
def EvalState.assignSlot (st : EvalState) (idx : Nat) (p : Pattern) : EvalState :=
  let slotName := "d" ++ toString idx
  { st with
    scheduler := st.scheduler.setPattern slotName p,
    slots := assocSet st.slots slotName (some p) }

/-- Modelled from the host language: `code.trim()` — strip leading and
trailing whitespace. -/
def jsTrim (s : String) : String :=
  String.mk (((s.data.dropWhile Char.isWhitespace).reverse.dropWhile
    Char.isWhitespace).reverse)

/-- Modelled from the host language: `s.startsWith(pre)`. -/
def jsStartsWith (s pre : String) : Bool :=
  pre.data.isPrefixOf s.data

/-- `CodeEvaluator.evaluate(code)` (src/editor/evaluator.js lines 35-102).
`exec` abstracts the JS engine's execution of the trimmed line inside the
`new Function` wrapper (including any slot/control functions it calls): it
yields a value or throws. The evaluator itself: skips blank lines and
`//` comments; passes through `{success,...}` results; auto-assigns a Pattern
(or Array, wrapped as a 'stacked' Pattern) to the next available slot after
auto-starting the scheduler; wraps anything thrown into
`{success: false, message: '✗ Error: ' + error.message}`. -/
def CodeEvaluator.evaluate (exec : String → ExecOutcome) (st : EvalState)
    (code : String) : EvalResult × EvalState :=
  let code := jsTrim code
  if code = "" ∨ jsStartsWith code "//" then
    ({ success := true, message := "Skipped comment/empty line" }, st)
  else
    match exec code with
    | ExecOutcome.thrown m =>
      ({ success := false, message := "✗ Error: " ++ m }, st)
    | ExecOutcome.value v =>
      match v with
      | JsValue.resultObj r => (r, st)
      | JsValue.patternVal p =>
        let st := if st.scheduler.isPlaying then st
                  else { st with scheduler := st.scheduler.start }
        let (idx, st) := CodeEvaluator.getNextAvailableSlot st
        let st := st.assignSlot idx p
        ({ success := true,
           message := "✓ Auto-assigned to d" ++ toString idx ++ ": " ++ p.descr }, st)
      | JsValue.arrayVal events =>
        let st := if st.scheduler.isPlaying then st
                  else { st with scheduler := st.scheduler.start }
        let (idx, st) := CodeEvaluator.getNextAvailableSlot st
        let stackedPattern := Pattern.mkNew events PatternType.stacked
        let st := st.assignSlot idx stackedPattern
        ({ success := true,
           message := "✓ Auto-assigned stacked pattern to d" ++ toString idx }, st)
      | _ => ({ success := true, message := "✓ Evaluated" }, st)

/-! ### Per-event effect chain builder (src/unnamed effects file:
`EffectChain`, `EffectsEngine.createEffectChain`) -/

/-- One processing node created by `createEffectChain`, tagged with its kind
and the parameter it was constructed with. -/
inductive Stage where
  | gainStage (value : ℚ)
  | hpfStage (freq : ℚ)
  | lpfStage (freq : ℚ)
  | reverbStage (wet : ℚ)
  | delayStage (wet : ℚ)
  | panStage (value : ℚ)
deriving DecidableEq, Repr

/-- The node kind alone, for stating the fixed construction order. -/
inductive StageTag where
  | gainT
  | hpfT
  | lpfT
  | reverbT
  | delayT
  | panT
deriving DecidableEq, Repr

/-- Tag of a stage. -/
def Stage.tag : Stage → StageTag
  | Stage.gainStage _ => StageTag.gainT
  | Stage.hpfStage _ => StageTag.hpfT
  | Stage.lpfStage _ => StageTag.lpfT
  | Stage.reverbStage _ => StageTag.reverbT
  | Stage.delayStage _ => StageTag.delayT
  | Stage.panStage _ => StageTag.panT

/-- The `EffectChain` handle: `nodes` is `createdNodes`, every node pushed
during construction, in construction order. (The `outputNode` is the last
element of source-then-nodes; only the tracked node list matters for the
disposal contract.) -/
structure EffectChain where
  nodes : List Stage
deriving DecidableEq, Repr

/-- `EffectChain.prototype.dispose` (lines 46-68): disconnects the output,
then disposes every tracked node in reverse order. The result is the list of
nodes disposed, in disposal order. -/
def EffectChain.dispose (ch : EffectChain) : List Stage :=
  ch.nodes.reverse

/-- `EffectsEngine.createEffectChain(effects, source)` (lines 124-201).
When uninitialised it returns a dummy chain with no tracked nodes. Otherwise
it pushes, in order: a gain node (always; `effects.gain !== undefined ?
effects.gain : 1.0` — our record always carries gain), then a high-pass node
when `effects.hpf && effects.hpf > 20` (JS truthiness: null/0 are falsy),
then a low-pass node when `effects.lpf && effects.lpf < 20000`, then a reverb
node when `effects.room && effects.room > 0`, then a delay node when
`effects.delay && effects.delay > 0`, then a panner when
`effects.pan !== undefined && effects.pan !== 0.5` (pan value rescaled by
`(pan - 0.5) * 2`). -/
def EffectsEngine.createEffectChain (initialized : Bool) (fx : Effects) :
    EffectChain :=
  if initialized = false then { nodes := [] }
  else
    { nodes :=
        [Stage.gainStage fx.gain]
        ++ (match fx.hpf with
            | some f => if f ≠ 0 ∧ f > 20 then [Stage.hpfStage f] else []
            | none => [])
        ++ (match fx.lpf with
            | some f => if f ≠ 0 ∧ f < 20000 then [Stage.lpfStage f] else []
            | none => [])
        ++ (if fx.room ≠ 0 ∧ fx.room > 0 then [Stage.reverbStage fx.room] else [])
        ++ (if fx.delay ≠ 0 ∧ fx.delay > 0 then [Stage.delayStage fx.delay] else [])
        ++ (if fx.pan ≠ 1/2 then [Stage.panStage ((fx.pan - 1/2) * 2)] else []) }

/-! ### Helper lemmas -/

/-- A freshly constructed Pattern returns its stored events unchanged for
every cycle: speed 1, not reversed, no transformations. -/
theorem getEventsForCycle_mkNew (evs : List Event) (ty : PatternType) (cyc : Int) :
    (Pattern.mkNew evs ty).getEventsForCycle cyc = evs := by
  simp [Pattern.mkNew, Pattern.getEventsForCycle]

/-- Whether a recorded transformation is an `every` entry (the only kind
`getEventsForCycle` acts on). -/
def Transform.isEvery : Transform → Bool
  | Transform.everyTag _ _ => true
  | _ => false

/-- The transformation fold of `getEventsForCycle` is the identity when the
list holds no `every` entries. -/
theorem foldl_no_every (l : List Transform) (cyc : Int)
    (h : ∀ t ∈ l, t.isEvery = false) (evs : List Event) :
    l.foldl (fun evs t =>
      match t with
      | Transform.everyTag n fn => if n ≠ 0 ∧ cyc % n = 0 then fn evs else evs
      | _ => evs) evs = evs := by
  induction l generalizing evs with
  | nil => rfl
  | cons t rest ih =>
    have ht := h t (List.mem_cons_self t rest)
    have hrest : ∀ t ∈ rest, t.isEvery = false :=
      fun t' ht' => h t' (List.mem_cons_of_mem t ht')
    cases t with
    | everyTag n fn => simp [Transform.isEvery] at ht
    | fastTag f => simpa using ih hrest evs
    | slowTag f => simpa using ih hrest evs
    | revTag => simpa using ih hrest evs

/-! ### C7 — stack is a cycle-0 snapshot concatenation -/

/-- C7: `stack(...patterns)` returns a single combined Pattern whose event
list is exactly the concatenation, in argument order, of each input's
`getEventsForCycle(0)`; and that combined Pattern returns the same snapshot
for every later cycle number (it holds no speed/reversal/transformation
state of its children). -/
theorem c7_theorem (ps : List Pattern) :
    (stack ps).events = ps.flatMap (fun p => p.getEventsForCycle 0)
    ∧ ∀ cyc : Int, (stack ps).getEventsForCycle cyc
        = ps.flatMap (fun p => p.getEventsForCycle 0) := by
  refine ⟨rfl, fun cyc => ?_⟩
  exact getEventsForCycle_mkNew _ _ cyc

/-! ### C6 — effect setters: clamping ranges -/

/-- A single effect-setter call, for quantifying over arbitrary call
sequences. -/
inductive EffectSetter where
  | roomS (q : ℚ)
  | delayS (q : ℚ)
  | lpfS (q : ℚ)
  | hpfS (q : ℚ)
  | panS (q : ℚ)
  | gainS (q : ℚ)

/-- Apply one setter call to a pattern. -/
def Pattern.applySetter (p : Pattern) : EffectSetter → Pattern
  | EffectSetter.roomS q => p.room q
  | EffectSetter.delayS q => p.delay q
  | EffectSetter.lpfS q => p.lpf q
  | EffectSetter.hpfS q => p.hpf q
  | EffectSetter.panS q => p.pan q
  | EffectSetter.gainS q => p.gain q

/-- Apply a sequence of setter calls left to right. -/
def Pattern.applySetters (p : Pattern) (l : List EffectSetter) : Pattern :=
  l.foldl Pattern.applySetter p

/-- The ranges the code actually maintains: gain in [0,2], room and delay in
[0,1], pan in [-1,1]. -/
def EffectsInRange (e : Effects) : Prop :=
  0 ≤ e.gain ∧ e.gain ≤ 2 ∧ 0 ≤ e.room ∧ e.room ≤ 1
    ∧ 0 ≤ e.delay ∧ e.delay ≤ 1 ∧ -1 ≤ e.pan ∧ e.pan ≤ 1

/-- One setter call keeps the effects in range. -/
theorem applySetter_inRange (p : Pattern) (s : EffectSetter)
    (h : EffectsInRange p.effects) : EffectsInRange (p.applySetter s).effects := by
  obtain ⟨h1, h2, h3, h4, h5, h6, h7, h8⟩ := h
  cases s with
  | roomS q =>
    refine ⟨h1, h2, le_max_left 0 _, max_le (by norm_num) (min_le_left 1 q), h5, h6, h7, h8⟩
  | delayS q =>
    refine ⟨h1, h2, h3, h4, le_max_left 0 _, max_le (by norm_num) (min_le_left 1 q), h7, h8⟩
  | lpfS q => exact ⟨h1, h2, h3, h4, h5, h6, h7, h8⟩
  | hpfS q => exact ⟨h1, h2, h3, h4, h5, h6, h7, h8⟩
  | panS q =>
    refine ⟨h1, h2, h3, h4, h5, h6, le_max_left (-1) _,
      max_le (by norm_num) (min_le_left 1 q)⟩
  | gainS q =>
    refine ⟨le_max_left 0 _, max_le (by norm_num) (min_le_left 2 q), h3, h4, h5, h6, h7, h8⟩

/-- Any sequence of setter calls keeps in-range effects in range. -/
theorem applySetters_inRange (l : List EffectSetter) (p : Pattern)
    (h : EffectsInRange p.effects) : EffectsInRange (p.applySetters l).effects := by
  induction l generalizing p with
  | nil => exact h
  | cons s rest ih => exact ih (p.applySetter s) (applySetter_inRange p s h)

/-- C6 (amended): every effect setter clamps and mutates only the effects
record — gain to [0,2], room and delay to [0,1], pan to [-1,1] (not [0,1]),
lpf/hpf set verbatim — and returns the pattern itself (all structural fields
unchanged); consequently, starting from a freshly constructed Pattern, after
any sequence of setter calls the effects stay within those ranges. -/
theorem c6_theorem :
    (∀ (p : Pattern) (a : ℚ), (p.gain a).effects.gain = max 0 (min 2 a))
    ∧ (∀ (p : Pattern) (a : ℚ), (p.room a).effects.room = max 0 (min 1 a))
    ∧ (∀ (p : Pattern) (a : ℚ), (p.delay a).effects.delay = max 0 (min 1 a))
    ∧ (∀ (p : Pattern) (a : ℚ), (p.pan a).effects.pan = max (-1) (min 1 a))
    ∧ (∀ (p : Pattern) (f : ℚ), (p.lpf f).effects.lpf = some f)
    ∧ (∀ (p : Pattern) (f : ℚ), (p.hpf f).effects.hpf = some f)
    ∧ (∀ (p : Pattern) (s : EffectSetter),
        (p.applySetter s).events = p.events ∧ (p.applySetter s).type = p.type
        ∧ (p.applySetter s).speed = p.speed
        ∧ (p.applySetter s).synthType = p.synthType)
    ∧ (∀ (evs : List Event) (ty : PatternType) (l : List EffectSetter),
        EffectsInRange ((Pattern.mkNew evs ty).applySetters l).effects) := by
  refine ⟨fun p a => rfl, fun p a => rfl, fun p a => rfl, fun p a => rfl,
    fun p f => rfl, fun p f => rfl, fun p s => ?_, fun evs ty l => ?_⟩
  · cases s <;> exact ⟨rfl, rfl, rfl, rfl⟩
  · refine applySetters_inRange l _ ?_
    refine ⟨by norm_num [Pattern.mkNew, Effects.init], by norm_num [Pattern.mkNew, Effects.init],
      by norm_num [Pattern.mkNew, Effects.init], by norm_num [Pattern.mkNew, Effects.init],
      by norm_num [Pattern.mkNew, Effects.init], by norm_num [Pattern.mkNew, Effects.init],
      by norm_num [Pattern.mkNew, Effects.init], by norm_num [Pattern.mkNew, Effects.init]⟩

/-- C6 counterexample: `pan` clamps to [-1, 1], not to [0, 1] — `pan(-3/4)`
stores -3/4, which is outside [0, 1], refuting the claimed pan range. -/
theorem c6_counterexample :
    ((Pattern.mkNew [] PatternType.sound).pan (-(3/4))).effects.pan = -(3/4)
    ∧ ¬(0 ≤ ((Pattern.mkNew [] PatternType.sound).pan (-(3/4))).effects.pan) := by
  constructor <;> norm_num [Pattern.pan, Pattern.mkNew, Effects.init]

/-! ### C4 — speed scaling and replication in getEventsForCycle -/

/-- Modelled from the spec: the claimed speed behaviour — divide each event's
time and duration by `speed`; when `speed > 1`, additionally replicate the
compressed event set `floor(speed)` times, replica `i` time-shifted by
`i / floor(speed)` (the compressed times themselves unchanged). -/
def specSpeedAdjust (p : Pattern) : List Event :=
  if p.speed = 1 then p.events
  else
    let compressed := p.events.map (fun e =>
      { e with time := e.time / p.speed, duration := e.duration / p.speed })
    if p.speed > 1 then
      let reps : Int := ⌊p.speed⌋
      (List.range reps.toNat).flatMap (fun i =>
        compressed.map (fun e => { e with time := e.time + (i : ℚ) / (reps : ℚ) }))
    else compressed

/-- A one-event pattern at time 1/2, sped up by 2 — the input separating the
code's replication formula from the claim's. -/
def fastHalfPattern : Pattern :=
  (Pattern.mkNew [{ sound := SoundVal.str "bd", time := 1/2, duration := 1/2 }]
    PatternType.sound).fast 2

/-- C4 counterexample: for an event at time 1/2 under `fast(2)`, the code
yields times 1/8 and 5/8 (`(t/speed + i) / floor(speed)` — the compressed time
is divided again by `floor(speed)`), while the claim's "replica i time-shifted
by i/floor(speed)" formula predicts 1/4 and 3/4; the claim is false at this
input. -/
theorem c4_counterexample :
    (fastHalfPattern.getEventsForCycle 0).map Event.time = [1/8, 5/8]
    ∧ (specSpeedAdjust fastHalfPattern).map Event.time = [1/4, 3/4]
    ∧ fastHalfPattern.getEventsForCycle 0 ≠ specSpeedAdjust fastHalfPattern := by
  have hfl : (⌊((1:ℚ)*2)⌋).toNat = 2 := by
    have : ⌊((1:ℚ)*2)⌋ = 2 := by norm_num
    rw [this]; rfl
  have h1 : (fastHalfPattern.getEventsForCycle 0).map Event.time = [1/8, 5/8] := by
    simp only [fastHalfPattern, Pattern.fast, Pattern.mkNew, Pattern.getEventsForCycle, hfl,
      List.range_succ, List.range_zero, List.nil_append, List.cons_append, List.flatMap_cons,
      List.flatMap_nil, List.map_cons, List.map_nil, List.append_nil, List.foldl_cons,
      List.foldl_nil]
    norm_num
  have h2 : (specSpeedAdjust fastHalfPattern).map Event.time = [1/4, 3/4] := by
    simp only [fastHalfPattern, Pattern.fast, Pattern.mkNew, specSpeedAdjust, hfl,
      List.range_succ, List.range_zero, List.nil_append, List.cons_append, List.flatMap_cons,
      List.flatMap_nil, List.map_cons, List.map_nil, List.append_nil]
    norm_num
  refine ⟨h1, h2, fun h => ?_⟩
  have h3 := congrArg (List.map Event.time) h
  rw [h1, h2] at h3
  have h4 : (1 : ℚ)/8 ≠ 1/4 := by norm_num
  exact h4 (by injection h3 with h5 h6)

/-- C4 (amended): when `speed ≠ 1`, every event's time and duration are
divided by `speed`; when `speed > 1` the compressed set is replicated
`floor(speed)` times with replica `i` placed at
`(time/speed + i) / floor(speed)` — the compressed time is scaled down by
`floor(speed)` again before the `i/floor(speed)` shift (stated for cycles at
which no `every` transformation fires, i.e. patterns whose recorded
transformations carry no `every` entry). In particular `fast(2)` on a
1-event pattern with time 0 and duration 1 yields two events at times 0 and
1/2, each with duration 1/2. -/
theorem c4_theorem :
    (∀ (p : Pattern) (cyc : Int), p.reversed = false →
      (∀ t ∈ p.transformations, t.isEvery = false) →
      (p.speed ≠ 1 → ¬p.speed > 1 →
        p.getEventsForCycle cyc = p.events.map (fun e =>
          { e with time := e.time / p.speed, duration := e.duration / p.speed }))
      ∧ (p.speed > 1 →
        p.getEventsForCycle cyc =
          (List.range ⌊p.speed⌋.toNat).flatMap (fun i =>
            p.events.map (fun e =>
              { e with time := (e.time / p.speed + (i : ℚ)) / (⌊p.speed⌋ : ℚ),
                       duration := e.duration / p.speed }))))
    ∧ (∀ (ty : PatternType) (s : SoundVal) (cyc : Int),
        ((Pattern.mkNew [{ sound := s, time := 0, duration := 1 }] ty).fast 2).getEventsForCycle cyc
          = [{ sound := s, time := 0, duration := 1/2 },
             { sound := s, time := 1/2, duration := 1/2 }]) := by
  constructor
  · intro p cyc hrev htrans
    constructor
    · intro hne hngt
      simp only [Pattern.getEventsForCycle, if_pos hne, if_neg hngt, hrev,
        Bool.false_eq_true, if_false]
      exact foldl_no_every p.transformations cyc htrans _
    · intro hgt
      have hne : p.speed ≠ 1 := by
        intro h; rw [h] at hgt; exact absurd hgt (by norm_num)
      simp only [Pattern.getEventsForCycle, if_pos hne, if_pos hgt, hrev,
        Bool.false_eq_true, if_false]
      rw [foldl_no_every p.transformations cyc htrans]
      simp only [List.map_map]
      rfl
  · intro ty s cyc
    have hfl : (⌊((1:ℚ)*2)⌋).toNat = 2 := by
      have : ⌊((1:ℚ)*2)⌋ = 2 := by norm_num
      rw [this]; rfl
    simp only [Pattern.fast, Pattern.mkNew, Pattern.getEventsForCycle, hfl,
      List.range_succ, List.range_zero, List.nil_append, List.cons_append, List.flatMap_cons,
      List.flatMap_nil, List.map_cons, List.map_nil, List.append_nil, List.foldl_cons,
      List.foldl_nil]
    norm_num

/-- C4 witness: the amended speed law applied at a concrete pattern —
`fast(3)` on one event at time 1/4, duration 1/4 gives replicas at
`(1/12 + i) / 3`. -/
theorem c4_witness :
    ((Pattern.mkNew [{ sound := SoundVal.str "hh", time := 1/4, duration := 1/4 }]
        PatternType.sound).fast 3).getEventsForCycle 7
      = [{ sound := SoundVal.str "hh", time := 1/36, duration := 1/12 },
         { sound := SoundVal.str "hh", time := 13/36, duration := 1/12 },
         { sound := SoundVal.str "hh", time := 25/36, duration := 1/12 }] := by
  have h := (c4_theorem.1
      ((Pattern.mkNew [{ sound := SoundVal.str "hh", time := 1/4, duration := 1/4 }]
        PatternType.sound).fast 3) 7 rfl
      (by intro t ht; simp [Pattern.fast, Pattern.mkNew] at ht; subst ht; rfl)).2
      (by norm_num [Pattern.fast, Pattern.mkNew])
  rw [h]
  have hfl : (⌊((1:ℚ)*3)⌋).toNat = 3 := by
    have : ⌊((1:ℚ)*3)⌋ = 3 := by norm_num
    rw [this]; rfl
  simp only [Pattern.fast, Pattern.mkNew, hfl, List.range_succ, List.range_zero,
    List.nil_append, List.cons_append, List.flatMap_cons, List.flatMap_nil,
    List.map_cons, List.map_nil, List.append_nil]
  norm_num

/-! ### C5 — parseNote -/

/-- The ten decimal digit characters. -/
def digitChars : List Char := ['0', '1', '2', '3', '4', '5', '6', '7', '8', '9']

/-- Character-class facts for decimal digits, by exhausting the ten cases. -/
theorem digitChar_facts (c : Char) (h : c ∈ digitChars) :
    c.isDigit = true ∧ c.isWhitespace = false ∧ c ≠ '-' ∧ c ≠ '+'
      ∧ ¬(c = '#' ∨ c = 'b') := by
  fin_cases h <;> exact ⟨rfl, rfl, by decide, by decide, by decide⟩

/-- On an all-digit nonempty list, the parseInt model returns the digit
value. -/
theorem jsParseInt_digits (ds : List Char) (hne : ds ≠ [])
    (h : ∀ c ∈ ds, c ∈ digitChars) :
    jsParseInt ds = some ((digitsVal ds : Nat) : Int) := by
  cases ds with
  | nil => exact absurd rfl hne
  | cons c t =>
    have hc := digitChar_facts c (h c (List.mem_cons_self c t))
    have hall : ∀ x ∈ c :: t, x.isDigit = true :=
      fun x hx => (digitChar_facts x (h x hx)).1
    have hlead : jsDigitsLead (c :: t) = some (digitsVal (c :: t)) := by
      unfold jsDigitsLead
      rw [List.takeWhile_eq_self_iff.mpr hall]
      simp
    unfold jsParseInt
    rw [List.dropWhile_cons, if_neg (by simp [hc.2.1])]
    simp only [jsParseIntSigned]
    rw [if_neg hc.2.2.1, if_neg hc.2.2.2.1, hlead]
    rfl

/-- `parseInt(ds) || 4` on an all-digit nonempty list: the digit value, with
0 replaced by the default 4. -/
theorem octaveOr4_digits (ds : List Char) (hne : ds ≠ [])
    (h : ∀ c ∈ ds, c ∈ digitChars) :
    octaveOr4 ds = (if digitsVal ds = 0 then 4 else (digitsVal ds : Int)) := by
  unfold octaveOr4
  rw [jsParseInt_digits ds hne h]
  by_cases h0 : digitsVal ds = 0
  · simp [h0]
  · simp [h0, Int.natCast_eq_zero]

/-- C5 counterexample: the code computes `parseNote("eb2") = (2+1)*12 + (4-1)
= 39`, not the claimed 38; additionally an explicit octave 0 ("c0") falls
back to the default octave 4 (yielding 60) instead of the formula's 12,
because of the `parseInt(...) || 4` fallback. -/
theorem c5_counterexample :
    MiniNotationParser.parseNote "eb2" = 39
    ∧ MiniNotationParser.parseNote "eb2" ≠ 38
    ∧ MiniNotationParser.parseNote "c0" = 60
    ∧ MiniNotationParser.parseNote "c0" ≠ (0 + 1) * 12 + 0 := by
  refine ⟨by decide, by decide, by decide, by decide⟩

/-- C5 (amended): on a lowercased, trimmed input of shape letter + optional
accidental + octave digits, `parseNote` returns
`(octave + 1) * 12 + semitone ± accidental`, where an octave whose digits
parse to 0 (and a missing octave) uses the default octave 4; any input whose
first character is not a note letter returns 60; concretely
`parseNote("c3") = 48` (case-insensitively, `parseNote("C3") = 48`),
`parseNote("c#4") = 61`, and `parseNote("eb2") = 39` — not 38. -/
theorem c5_theorem :
    (∀ (c0 : Char) (sem : Int), noteMap c0 = some sem →
      ∀ ds : List Char, ds ≠ [] → (∀ c ∈ ds, c ∈ digitChars) →
        (parseNoteCore (c0 :: ds)
            = ((if digitsVal ds = 0 then 4 else (digitsVal ds : Int)) + 1) * 12 + sem)
        ∧ (parseNoteCore (c0 :: '#' :: ds)
            = ((if digitsVal ds = 0 then 4 else (digitsVal ds : Int)) + 1) * 12 + (sem + 1))
        ∧ (parseNoteCore (c0 :: 'b' :: ds)
            = ((if digitsVal ds = 0 then 4 else (digitsVal ds : Int)) + 1) * 12 + (sem - 1)))
    ∧ (∀ (c0 : Char) (sem : Int), noteMap c0 = some sem →
        parseNoteCore [c0] = (4 + 1) * 12 + sem)
    ∧ parseNoteCore [] = 60
    ∧ (∀ (c0 : Char) (rest : List Char), noteMap c0 = none →
        parseNoteCore (c0 :: rest) = 60)
    ∧ MiniNotationParser.parseNote "c3" = 48
    ∧ MiniNotationParser.parseNote "C3" = 48
    ∧ MiniNotationParser.parseNote "c#4" = 61
    ∧ MiniNotationParser.parseNote "eb2" = 39 := by
  refine ⟨?_, ?_, rfl, ?_, by decide, by decide, by decide, by decide⟩
  · intro c0 sem hsem ds hne hds
    obtain ⟨d, t, rfl⟩ : ∃ d t, ds = d :: t := by
      cases ds with
      | nil => exact absurd rfl hne
      | cons d t => exact ⟨d, t, rfl⟩
    have hd := digitChar_facts d (hds d (List.mem_cons_self d t))
    have hoct := octaveOr4_digits (d :: t) hne hds
    refine ⟨?_, ?_, ?_⟩
    · simp only [parseNoteCore, if_neg hd.2.2.2.2, hsem, hoct]
      simp
    · simp only [parseNoteCore, hsem,
        if_pos (Or.inl rfl : ('#':Char) = '#' ∨ ('#':Char) = 'b'),
        List.isEmpty_cons, hoct]
      simp
    · simp only [parseNoteCore, hsem,
        if_pos (Or.inr rfl : ('b':Char) = '#' ∨ ('b':Char) = 'b'),
        List.isEmpty_cons, hoct]
      simp
  · intro c0 sem hsem
    simp only [parseNoteCore, hsem]
    simp
  · intro c0 rest hnone
    cases rest with
    | nil => simp [parseNoteCore, hnone]
    | cons c1 t => simp [parseNoteCore, hnone]

/-- C5 witness: the amended formula applied at letter 'e', accidental 'b',
octave digits "2" gives `parseNoteCore "eb2" = (2+1)*12 + (4-1) = 39`. -/
theorem c5_witness : parseNoteCore ['e', 'b', '2'] = 39 := by
  have h := ((c5_theorem.1 'e' 4 rfl ['2'] (by decide) (by decide)).2.2)
  rw [h]; decide

/-! ### C1 — the metronome timer is a fixed-period repeating timer -/

/-- C1 counterexample: at bpm 120 the code's timer delay is the constant
`cycleDurationMs 120 = 2000` ms for every tick, while the claim's
drift-corrected formula `max(0, beatDuration - drift)` demands 500 ms even at
zero drift: the scheduler computes no drift quantity at all. -/
theorem c1_counterexample :
    schedulerTickDelayMs 120 0 = 2000
    ∧ claimNextDelayMs 120 0 = 500
    ∧ schedulerTickDelayMs 120 0 ≠ claimNextDelayMs 120 0 := by
  refine ⟨?_, ?_, ?_⟩ <;>
    norm_num [schedulerTickDelayMs, cycleDurationMs, claimNextDelayMs]

/-- C1 (amended): `start()` registers a fixed-period repeating timer — the
delay before every tick is the constant `cycleDurationMs = (60000/bpm)*4`,
with no drift computation. Under the host timer's semantics (tick `n` fires
at `(n+1)*period` plus bounded observation jitter), the average interval
between dispatched cycle starts over the first N ticks stays within `2B/N`
of the nominal cycle duration, for any jitter bounded by B. -/
theorem c1_theorem (bpm B : ℚ) (jitter : ℕ → ℚ) (N : ℕ) (hN : 0 < N)
    (hB : ∀ n, |jitter n| ≤ B) :
    (∀ n, schedulerTickDelayMs bpm n = cycleDurationMs bpm)
    ∧ |avgTickIntervalMs bpm jitter N - cycleDurationMs bpm| ≤ 2 * B / N := by
  refine ⟨fun n => rfl, ?_⟩
  have hNQ : (0 : ℚ) < (N : ℚ) := by exact_mod_cast hN
  have hkey : avgTickIntervalMs bpm jitter N - cycleDurationMs bpm
      = (jitter N - jitter 0) / (N : ℚ) := by
    unfold avgTickIntervalMs tickFireTimeMs
    field_simp
    ring
  rw [hkey, abs_div, abs_of_pos hNQ, div_le_div_iff_of_pos_right hNQ]
  calc |jitter N - jitter 0| = |jitter N + -(jitter 0)| := by ring_nf
    _ ≤ |jitter N| + |(-(jitter 0))| := abs_add _ _
    _ = |jitter N| + |jitter 0| := by rw [abs_neg]
    _ ≤ B + B := add_le_add (hB N) (hB 0)
    _ = 2 * B := by ring

/-- A concrete bounded jitter profile: 3 ms late on the first tick, 1 ms late
afterwards. -/
def jit100 : ℕ → ℚ := fun n => if n = 0 then 3 else 1

/-- C1 witness: at bpm 120 over 100 ticks with the `jit100` jitter the
average tick interval evaluates to 2000 - 1/50 ms, within 2·3/100 of the
nominal 2000 ms cycle - obtained by applying the amended theorem. -/
theorem c1_witness :
    avgTickIntervalMs 120 jit100 100 = 2000 - 1/50
    ∧ |avgTickIntervalMs 120 jit100 100 - cycleDurationMs 120| ≤ 2 * 3 / 100 := by
  constructor
  · norm_num [avgTickIntervalMs, tickFireTimeMs, cycleDurationMs, jit100]
  · exact (c1_theorem 120 3 jit100 100 (by norm_num)
      (fun n => by by_cases h : n = 0 <;> simp [jit100, h])).2

/-! ### C3 — setBPM clamps and restarts, but the restarted callback no
longer dispatches cycles -/

/-- C3: evaluation of the scheduler model at the failing input. After
`start()`, the installed metronome callback dispatches cycles; calling
`setBPM(100)` while playing clamps the bpm, stays playing, and reinstalls the
interval at the recomputed period — but the replacement callback only pulses
the LED and never calls `scheduleCycle`, so cycle dispatch stops. The clamp
boundaries are also evaluated. -/
theorem c3_theorem :
    ((SchedState.initial.start).metronomeInterval.map TimerCallback.dispatchesCycles
      = some true)
    ∧ ((SchedState.initial.start.setBPM 100).bpm = 100)
    ∧ ((SchedState.initial.start.setBPM 100).isPlaying = true)
    ∧ ((SchedState.initial.start.setBPM 100).metronomeInterval.map TimerCallback.periodMs
        = some (cycleDurationMs 100))
    ∧ ((SchedState.initial.start.setBPM 100).metronomeInterval.map TimerCallback.pulsesLed
        = some true)
    ∧ ((SchedState.initial.start.setBPM 100).metronomeInterval.map TimerCallback.dispatchesCycles
        = some false)
    ∧ ((SchedState.initial.start.setBPM 30).bpm = 60)
    ∧ ((SchedState.initial.start.setBPM 500).bpm = 200) := by
  refine ⟨rfl, ?_, ?_, ?_, ?_, ?_, ?_, ?_⟩ <;>
    norm_num [SchedState.initial, SchedState.start, SchedState.setBPM, cycleDurationMs]

/-! ### C2 — per-event dispatch: timing and routing are as claimed, but only
gain is forwarded -/

/-- `filterMap` by an everywhere-`some` function is `map`. -/
theorem filterMap_some_eq_map {α β : Type} (f : α → β) (l : List α) :
    l.filterMap (fun a => some (f a)) = l.map f := by
  induction l with
  | nil => rfl
  | cons a t ih => simp [List.filterMap_cons, ih]

/-- `filterMap` by the constant `none` function is `[]`. -/
theorem filterMap_none_eq_nil {α β : Type} (l : List α) :
    l.filterMap (fun _ => (none : Option β)) = [] := by
  induction l with
  | nil => rfl
  | cons a t ih => simp [List.filterMap_cons, ih]

/-- C2 (amended): for each event of `getEventsForCycle(cycleNumber)`,
`schedulePattern` dispatches at `eventTime = time + event.time * cycleDuration`
with `durationSeconds = event.duration * cycleDuration`, routed by the
pattern's type — 'sound' events to the sample trigger (name, time, gain only),
'note' events to the synth trigger with MIDI pitch resolved through
`parseNote` when not already numeric — but only the pattern's gain (with a
falsy 0 replaced by 1.0) is forwarded, not the full effects record; a pattern
of type 'stacked' dispatches nothing. -/
theorem c2_theorem (bpm : ℚ) (p : Pattern) (time : ℚ) (cyc : Int) :
    (p.type = PatternType.sound →
      PatternScheduler.schedulePattern bpm p time cyc
        = (p.getEventsForCycle cyc).map (fun e =>
            Dispatch.sample e.sound (time + e.time * cycleDurationSec bpm)
              (if p.effects.gain = 0 then 1 else p.effects.gain)))
    ∧ (p.type = PatternType.note →
      PatternScheduler.schedulePattern bpm p time cyc
        = (p.getEventsForCycle cyc).map (fun e =>
            Dispatch.note
              (match e.sound with
               | SoundVal.num n => n
               | SoundVal.str str => MiniNotationParser.parseNote str)
              (p.synthType.getD "sawtooth")
              (time + e.time * cycleDurationSec bpm)
              (e.duration * cycleDurationSec bpm)
              (if p.effects.gain = 0 then 1 else p.effects.gain)))
    ∧ (p.type = PatternType.stacked →
      PatternScheduler.schedulePattern bpm p time cyc = []) := by
  refine ⟨fun h => ?_, fun h => ?_, fun h => ?_⟩ <;>
    simp only [PatternScheduler.schedulePattern, cycleDurationSec, h] <;>
    first
      | exact filterMap_some_eq_map _ _
      | exact filterMap_none_eq_nil _

/-- A one-event note pattern ("c3") used for the C2 witness. -/
def notePattern1 : Pattern :=
  Pattern.mkNew [{ sound := SoundVal.str "c3", time := 0, duration := 1/2 }]
    PatternType.note

/-- C2 witness: the note branch of the amended theorem at bpm 120 — tone "c3"
resolves to MIDI 48, dispatched at time 0 for 1 second with gain 1. -/
theorem c2_witness :
    PatternScheduler.schedulePattern 120 notePattern1 0 1
      = [Dispatch.note 48 "sawtooth" 0 1 1] := by
  rw [(c2_theorem 120 notePattern1 0 1).2.1 rfl]
  have h1 : notePattern1.getEventsForCycle 1
      = [{ sound := SoundVal.str "c3", time := 0, duration := 1/2 }] :=
    getEventsForCycle_mkNew _ _ 1
  rw [h1]
  have h2 : MiniNotationParser.parseNote "c3" = 48 := by decide
  simp only [List.map_cons, List.map_nil, h2, notePattern1, Pattern.mkNew, Effects.init,
    Option.getD_none]
  norm_num [cycleDurationSec]

/-- A one-event sound pattern used for the C2 counterexample. -/
def soundPattern1 : Pattern :=
  Pattern.mkNew [{ sound := SoundVal.str "bd", time := 0, duration := 9/10 }]
    PatternType.sound

/-- C2 counterexample: two patterns that differ only in their `room` effect
produce byte-identical dispatch lists — the dispatched payload carries no
room/delay/lpf/hpf/pan information, so the full per-pattern effects record
is not forwarded, refuting the claim. -/
theorem c2_counterexample :
    (soundPattern1.room (7/10)).effects ≠ soundPattern1.effects
    ∧ PatternScheduler.schedulePattern 120 (soundPattern1.room (7/10)) 0 1
        = PatternScheduler.schedulePattern 120 soundPattern1 0 1 := by
  constructor
  · intro h
    have h2 := congrArg Effects.room h
    simp only [soundPattern1, Pattern.room, Pattern.mkNew, Effects.init] at h2
    norm_num at h2
  · rfl

/-! ### C9 — effect chain construction order and full disposal -/

set_option maxHeartbeats 2000000 in
/-- C9: `createEffectChain` (on an initialised engine) always constructs the
gain stage first; the stages appear in the fixed order gain → high-pass →
low-pass → reverb → delay → pan; a high-pass stage exists only when `hpf` is
set above the 20 Hz transparent floor, a low-pass stage only when `lpf` is
set; the reverb, delay and pan stages exist exactly when `room > 0`,
`delay > 0` and `pan ≠ 0.5` respectively; and `dispose()` releases every
recorded stage (the disposal list is the reversal of the recorded node list,
so it covers each node exactly once, not just the final stage). -/
theorem c9_theorem (fx : Effects) :
    ((EffectsEngine.createEffectChain true fx).nodes.head?
        = some (Stage.gainStage fx.gain))
    ∧ ((EffectsEngine.createEffectChain true fx).nodes.map Stage.tag).Sublist
        [StageTag.gainT, StageTag.hpfT, StageTag.lpfT, StageTag.reverbT,
         StageTag.delayT, StageTag.panT]
    ∧ (∀ f, Stage.hpfStage f ∈ (EffectsEngine.createEffectChain true fx).nodes →
        fx.hpf = some f ∧ 20 < f)
    ∧ (∀ f, Stage.lpfStage f ∈ (EffectsEngine.createEffectChain true fx).nodes →
        fx.lpf = some f)
    ∧ ((∃ w, Stage.reverbStage w ∈ (EffectsEngine.createEffectChain true fx).nodes)
        ↔ 0 < fx.room)
    ∧ ((∃ w, Stage.delayStage w ∈ (EffectsEngine.createEffectChain true fx).nodes)
        ↔ 0 < fx.delay)
    ∧ ((∃ v, Stage.panStage v ∈ (EffectsEngine.createEffectChain true fx).nodes)
        ↔ fx.pan ≠ 1/2)
    ∧ (∀ s ∈ (EffectsEngine.createEffectChain true fx).nodes,
        s ∈ (EffectsEngine.createEffectChain true fx).dispose)
    ∧ ((EffectsEngine.createEffectChain true fx).dispose.length
        = (EffectsEngine.createEffectChain true fx).nodes.length) := by
  obtain ⟨room, dly, lpfO, hpfO, pan, gin⟩ := fx
  have hroom : (room ≠ 0 ∧ 0 < room) ↔ 0 < room :=
    ⟨And.right, fun h => ⟨ne_of_gt h, h⟩⟩
  have hdly : (dly ≠ 0 ∧ 0 < dly) ↔ 0 < dly :=
    ⟨And.right, fun h => ⟨ne_of_gt h, h⟩⟩
  simp only [EffectsEngine.createEffectChain, EffectChain.dispose,
    if_neg (by decide : ¬(true = false)), List.mem_reverse, List.length_reverse,
    implies_true, and_true, true_and]
  refine ⟨?_, ?_, ?_, ?_, ?_, ?_, ?_⟩
  · rcases hpfO with _ | f1 <;> rcases lpfO with _ | f2 <;> simp
  · rcases hpfO with _ | f1 <;> rcases lpfO with _ | f2 <;>
      simp only [List.map_append, List.map_cons, List.map_nil, List.singleton_append] <;>
      split_ifs <;>
      simp only [List.map_cons, List.map_nil, List.nil_append, List.cons_append,
        List.append_nil, Stage.tag] <;>
      decide
  · intro f
    rcases hpfO with _ | f1 <;> rcases lpfO with _ | f2 <;>
      split_ifs with h1 h2 h3 h4 h5 <;>
      simp_all
  · intro f
    rcases hpfO with _ | f1 <;> rcases lpfO with _ | f2 <;>
      split_ifs with h1 h2 h3 h4 h5 <;>
      simp_all
  · rw [← hroom]
    rcases hpfO with _ | f1 <;> rcases lpfO with _ | f2 <;>
      split_ifs with h1 h2 h3 h4 h5 <;> simp_all
  · rw [← hdly]
    rcases hpfO with _ | f1 <;> rcases lpfO with _ | f2 <;>
      split_ifs with h1 h2 h3 h4 h5 <;> simp_all
  · rcases hpfO with _ | f1 <;> rcases lpfO with _ | f2 <;>
      split_ifs with h1 h2 h3 h4 h5 <;> simp_all

/-! ### C8 — evaluate: structured results, but the line content is not in the
error message -/

/-- An execution oracle modelling a JS engine that rejects every line with a
syntax error. -/
def execSyntaxError : String → ExecOutcome :=
  fun _ => ExecOutcome.thrown "Unexpected token"

/-- C8 counterexample: evaluating the malformed line `][` returns the
structured failure `{success: false, message: "✗ Error: Unexpected token"}`,
and that message does not contain the offending line's content `][` as a
substring — the evaluator only embeds the engine's error message, never the
line itself. -/
theorem c8_counterexample :
    CodeEvaluator.evaluate execSyntaxError EvalState.initial "]["
      = ({ success := false, message := "✗ Error: Unexpected token" },
         EvalState.initial)
    ∧ ¬(("][").data <:+: ("✗ Error: Unexpected token").data) := by
  exact ⟨rfl, by decide⟩

/-- C8 (amended): `evaluate` never throws — every outcome is a structured
result: a blank or `//`-comment line returns success "Skipped comment/empty
line" with the state unchanged, and when the engine throws with message `m`
the evaluator returns `{success: false, message: "✗ Error: " ++ m}` with the
state unchanged (the offending line's content appears in the message only if
the engine's own message happens to contain it). -/
theorem c8_theorem (exec : String → ExecOutcome) (st : EvalState) (code : String) :
    ((jsTrim code = "" ∨ jsStartsWith (jsTrim code) "//" = true) →
      CodeEvaluator.evaluate exec st code
        = ({ success := true, message := "Skipped comment/empty line" }, st))
    ∧ (∀ m, jsTrim code ≠ "" → jsStartsWith (jsTrim code) "//" = false →
        exec (jsTrim code) = ExecOutcome.thrown m →
        CodeEvaluator.evaluate exec st code
          = ({ success := false, message := "✗ Error: " ++ m }, st)) := by
  constructor
  · intro h
    simp only [CodeEvaluator.evaluate]
    rw [if_pos]
    rcases h with h | h
    · exact Or.inl h
    · exact Or.inr h
  · intro m h1 h2 hexec
    simp only [CodeEvaluator.evaluate]
    rw [if_neg, hexec]
    rintro (h | h)
    · exact h1 h
    · rw [h2] at h
      exact Bool.false_ne_true h

/-- An execution oracle whose lone error is an unexpected end of input. -/
def execEndOfInput : String → ExecOutcome :=
  fun _ => ExecOutcome.thrown "Unexpected end of input"

/-- C8 witness: the amended theorem applied at a truncated line and at a
comment line. -/
theorem c8_witness :
    CodeEvaluator.evaluate execEndOfInput EvalState.initial "d1(s("
      = ({ success := false, message := "✗ Error: Unexpected end of input" },
         EvalState.initial)
    ∧ CodeEvaluator.evaluate execEndOfInput EvalState.initial "// comment"
      = ({ success := true, message := "Skipped comment/empty line" },
         EvalState.initial) := by
  constructor
  · exact (c8_theorem execEndOfInput EvalState.initial "d1(s(").2
      "Unexpected end of input" (by decide) (by decide) rfl
  · exact (c8_theorem execEndOfInput EvalState.initial "// comment").1
      (Or.inr (by decide))

/-! ### C10 — un-slotted Patterns are auto-assigned to the first free slot -/

/-- `find?` over `range' s n` returns the first satisfying index. -/
theorem range'_find?_first (s n : ℕ) (pred : ℕ → Bool) (i : ℕ)
    (h1 : s ≤ i) (h2 : i < s + n) (hi : pred i = true)
    (hj : ∀ j, s ≤ j → j < i → pred j = false) :
    (List.range' s n).find? pred = some i := by
  induction n generalizing s with
  | zero => omega
  | succ n ih =>
    rw [List.range'_succ]
    by_cases hs : s = i
    · subst hs
      rw [List.find?_cons_of_pos _ hi]
    · have hsi : s < i := lt_of_le_of_ne h1 hs
      rw [List.find?_cons_of_neg _ (by simp [hj s le_rfl hsi])]
      exact ih (s + 1) hsi (by omega) (fun j hj1 hj2 => hj j (by omega) hj2)

/-- `find?` over `range' s n` is `none` when no index satisfies. -/
theorem range'_find?_none (s n : ℕ) (pred : ℕ → Bool)
    (h : ∀ j, s ≤ j → j < s + n → pred j = false) :
    (List.range' s n).find? pred = none := by
  induction n generalizing s with
  | zero => rfl
  | succ n ih =>
    rw [List.range'_succ]
    rw [List.find?_cons_of_neg _ (by simp [h s le_rfl (by omega)])]
    exact ih (s + 1) (fun j hj1 hj2 => h j (by omega) (by omega))

/-- Updating a key then reading it back yields the stored value. -/
theorem assocGet_assocSet_self {α : Type} (l : List (String × α)) (k : String)
    (v : α) : assocGet (assocSet l k v) k = some v := by
  induction l with
  | nil => simp [assocSet, assocGet]
  | cons kv rest ih =>
    obtain ⟨k0, v0⟩ := kv
    by_cases hk : k0 = k
    · subst hk
      simp [assocSet, assocGet]
    · simp [assocSet, assocGet, hk, ih]

/-- C10: when the evaluated expression yields a Pattern that was not passed
to a slot function, `evaluate` auto-assigns it — to the first empty slot
among d1..d9 when one exists, otherwise to slot `currentSlotIndex % 9 + 1`
(round-robin overwrite) — starts the scheduler if it is not already playing,
and reports success, never an error. -/
theorem c10_theorem (exec : String → ExecOutcome) (st : EvalState)
    (code : String) (p : Pattern)
    (h1 : jsTrim code ≠ "") (h2 : jsStartsWith (jsTrim code) "//" = false)
    (hexec : exec (jsTrim code) = ExecOutcome.value (JsValue.patternVal p)) :
    ((CodeEvaluator.evaluate exec st code).1.success = true)
    ∧ ((CodeEvaluator.evaluate exec st code).2.scheduler.isPlaying = true)
    ∧ (∀ i, 1 ≤ i → i ≤ 9 → st.slotVal ("d" ++ toString i) = none →
        (∀ j, 1 ≤ j → j < i → st.slotVal ("d" ++ toString j) ≠ none) →
        (CodeEvaluator.evaluate exec st code).2.slotVal ("d" ++ toString i) = some p
        ∧ (CodeEvaluator.evaluate exec st code).2.scheduler.getPattern
            ("d" ++ toString i) = some p)
    ∧ ((∀ j, 1 ≤ j → j ≤ 9 → st.slotVal ("d" ++ toString j) ≠ none) →
        (CodeEvaluator.evaluate exec st code).2.slotVal
            ("d" ++ toString (st.currentSlotIndex % 9 + 1)) = some p
        ∧ (CodeEvaluator.evaluate exec st code).2.scheduler.getPattern
            ("d" ++ toString (st.currentSlotIndex % 9 + 1)) = some p
        ∧ (CodeEvaluator.evaluate exec st code).2.currentSlotIndex
            = st.currentSlotIndex % 9 + 1) := by
  have hcond : ¬(jsTrim code = "" ∨ jsStartsWith (jsTrim code) "//" = true) := by
    rintro (h | h)
    · exact h1 h
    · rw [h2] at h
      exact Bool.false_ne_true h
  have hshape : ∀ idx st2,
      CodeEvaluator.getNextAvailableSlot
        (if st.scheduler.isPlaying then st
         else { st with scheduler := st.scheduler.start }) = (idx, st2) →
      CodeEvaluator.evaluate exec st code
        = ({ success := true,
             message := "✓ Auto-assigned to d" ++ toString idx ++ ": " ++ p.descr },
           st2.assignSlot idx p) := by
    intro idx st2 hga
    simp only [CodeEvaluator.evaluate]
    rw [if_neg hcond, hexec]
    simp only [hga]
  have hslots1 :
      (if st.scheduler.isPlaying then st
       else { st with scheduler := st.scheduler.start }).slots = st.slots := by
    by_cases hp : st.scheduler.isPlaying <;> simp [hp]
  have hidx1 :
      (if st.scheduler.isPlaying then st
       else { st with scheduler := st.scheduler.start }).currentSlotIndex
        = st.currentSlotIndex := by
    by_cases hp : st.scheduler.isPlaying <;> simp [hp]
  have hplay1 :
      (if st.scheduler.isPlaying then st
       else { st with scheduler := st.scheduler.start }).scheduler.isPlaying
        = true := by
    by_cases hp : st.scheduler.isPlaying
    · simp [hp]
    · simp [hp, SchedState.start]
  have hsv : ∀ name,
      (if st.scheduler.isPlaying then st
       else { st with scheduler := st.scheduler.start }).slotVal name
        = st.slotVal name := by
    intro name
    simp only [EvalState.slotVal, hslots1]
  have hga_pres : ∀ idx st2,
      CodeEvaluator.getNextAvailableSlot
        (if st.scheduler.isPlaying then st
         else { st with scheduler := st.scheduler.start }) = (idx, st2) →
      st2.scheduler
        = (if st.scheduler.isPlaying then st
           else { st with scheduler := st.scheduler.start }).scheduler
      ∧ st2.slots
        = (if st.scheduler.isPlaying then st
           else { st with scheduler := st.scheduler.start }).slots := by
    intro idx st2 hga
    rcases hf : (List.range' 1 9).find? (fun j =>
        ((if st.scheduler.isPlaying then st
          else { st with scheduler := st.scheduler.start }).slotVal
            ("d" ++ toString j)).isNone) with _ | i <;>
      simp only [CodeEvaluator.getNextAvailableSlot, hf] at hga
    · injection hga with hA hB
      subst hB
      exact ⟨rfl, rfl⟩
    · injection hga with hA hB
      subst hB
      exact ⟨rfl, rfl⟩
  refine ⟨?_, ?_, ?_, ?_⟩
  · rcases hga : CodeEvaluator.getNextAvailableSlot
        (if st.scheduler.isPlaying then st
         else { st with scheduler := st.scheduler.start }) with ⟨idx, st2⟩
    rw [hshape idx st2 hga]
  · rcases hga : CodeEvaluator.getNextAvailableSlot
        (if st.scheduler.isPlaying then st
         else { st with scheduler := st.scheduler.start }) with ⟨idx, st2⟩
    rw [hshape idx st2 hga]
    show st2.scheduler.isPlaying = true
    rw [(hga_pres idx st2 hga).1, hplay1]
  · intro i hi1 hi9 hempty hfirst
    have hpredi :
        ((if st.scheduler.isPlaying then st
          else { st with scheduler := st.scheduler.start }).slotVal
            ("d" ++ toString i)).isNone = true := by
      rw [hsv ("d" ++ toString i), hempty]
      rfl
    have hpredj : ∀ j, 1 ≤ j → j < i →
        ((if st.scheduler.isPlaying then st
          else { st with scheduler := st.scheduler.start }).slotVal
            ("d" ++ toString j)).isNone = false := by
      intro j hj1 hj2
      rw [hsv ("d" ++ toString j)]
      rcases hne : st.slotVal ("d" ++ toString j) with _ | q
      · exact absurd hne (hfirst j hj1 hj2)
      · rfl
    have hfind := range'_find?_first 1 9 _ i hi1 (by omega) hpredi hpredj
    have hga : CodeEvaluator.getNextAvailableSlot
        (if st.scheduler.isPlaying then st
         else { st with scheduler := st.scheduler.start })
        = (i, (if st.scheduler.isPlaying then st
               else { st with scheduler := st.scheduler.start })) := by
      simp only [CodeEvaluator.getNextAvailableSlot, hfind]
    rw [hshape i _ hga]
    constructor
    · show (EvalState.slotVal _ _) = some p
      simp only [EvalState.assignSlot, EvalState.slotVal]
      rw [assocGet_assocSet_self]
      rfl
    · show (SchedState.getPattern _ _) = some p
      simp only [EvalState.assignSlot, SchedState.setPattern, SchedState.getPattern]
      exact assocGet_assocSet_self _ _ _
  · intro hall
    have hpredall : ∀ j, 1 ≤ j → j < 1 + 9 →
        ((if st.scheduler.isPlaying then st
          else { st with scheduler := st.scheduler.start }).slotVal
            ("d" ++ toString j)).isNone = false := by
      intro j hj1 hj2
      rw [hsv ("d" ++ toString j)]
      rcases hne : st.slotVal ("d" ++ toString j) with _ | q
      · exact absurd hne (hall j hj1 (by omega))
      · rfl
    have hfind := range'_find?_none 1 9 _ hpredall
    have hga : CodeEvaluator.getNextAvailableSlot
        (if st.scheduler.isPlaying then st
         else { st with scheduler := st.scheduler.start })
        = (st.currentSlotIndex % 9 + 1,
           { (if st.scheduler.isPlaying then st
              else { st with scheduler := st.scheduler.start }) with
             currentSlotIndex := st.currentSlotIndex % 9 + 1 }) := by
      simp only [CodeEvaluator.getNextAvailableSlot, hfind, hidx1]
    rw [hshape _ _ hga]
    refine ⟨?_, ?_, ?_⟩
    · show (EvalState.slotVal _ _) = some p
      simp only [EvalState.assignSlot, EvalState.slotVal]
      rw [assocGet_assocSet_self]
      rfl
    · show (SchedState.getPattern _ _) = some p
      simp only [EvalState.assignSlot, SchedState.setPattern, SchedState.getPattern]
      exact assocGet_assocSet_self _ _ _
    · rfl

/-- An execution oracle whose every line yields an un-slotted Pattern. -/
def execYieldsPattern : String → ExecOutcome :=
  fun _ => ExecOutcome.value (JsValue.patternVal notePattern1)

/-- An evaluator state with d1 occupied, d2..d9 free, scheduler stopped. -/
def occupiedState : EvalState :=
  { slots := [("d1", some soundPattern1)], currentSlotIndex := 0,
    scheduler := SchedState.initial }

/-- C10 witness: evaluating a line yielding a bare Pattern on a state whose
d1 is occupied auto-assigns it to d2 (the first free slot), starts the
scheduler and reports success. -/
theorem c10_witness :
    (CodeEvaluator.evaluate execYieldsPattern occupiedState "s(c3)").1.success = true
    ∧ (CodeEvaluator.evaluate execYieldsPattern occupiedState "s(c3)").2.scheduler.isPlaying
        = true
    ∧ (CodeEvaluator.evaluate execYieldsPattern occupiedState "s(c3)").2.slotVal "d2"
        = some notePattern1
    ∧ (CodeEvaluator.evaluate execYieldsPattern occupiedState "s(c3)").2.scheduler.getPattern
        "d2" = some notePattern1 := by
  have h := c10_theorem execYieldsPattern occupiedState "s(c3)" notePattern1
    (by decide) (by decide) rfl
  have h2 := h.2.2.1 2 (by norm_num) (by norm_num) rfl
    (by
      intro j hj1 hj2
      have hj : j = 1 := by omega
      subst hj
      intro hc
      have : occupiedState.slotVal ("d" ++ toString 1) = some soundPattern1 := rfl
      rw [this] at hc
      exact Option.noConfusion hc)
  exact ⟨h.1, h.2.1, h2.1, h2.2⟩

/-- A concrete effects record exercising gain, high-pass and reverb stages. -/
def fx0 : Effects :=
  { room := 1/2, delay := 0, lpf := none, hpf := some 100, pan := 1/2, gain := 2 }

/-- C9 witness: the chain theorem applied at `fx0` — the chain is
gain → high-pass(100) → reverb(1/2); its head is the gain stage, the
high-pass membership certifies `hpf = some 100 > 20 Hz`, and the reverb
stage's existence certifies `room > 0`. -/
theorem c9_witness :
    (EffectsEngine.createEffectChain true fx0).nodes
      = [Stage.gainStage 2, Stage.hpfStage 100, Stage.reverbStage (1/2)]
    ∧ (EffectsEngine.createEffectChain true fx0).nodes.head?
        = some (Stage.gainStage 2)
    ∧ (fx0.hpf = some 100 ∧ (20:ℚ) < 100)
    ∧ 0 < fx0.room := by
  have hn : (EffectsEngine.createEffectChain true fx0).nodes
      = [Stage.gainStage 2, Stage.hpfStage 100, Stage.reverbStage (1/2)] := by
    norm_num [EffectsEngine.createEffectChain, fx0]
  have h := c9_theorem fx0
  refine ⟨hn, h.1, h.2.2.1 100 ?_, (h.2.2.2.2.1).mp ⟨1/2, ?_⟩⟩
  · rw [hn]
    simp
  · rw [hn]
    simp
